import Mathlib

/-!
# The asset cache of `js/assets.js`

A shallow embedding of the low-level asset files manager: the key codec
(`cachePathFromPath`, `pathFromCachePath`), the memoised file-system handle
(`requestFileSystem`), the version-triggered sweep (`synchronizeCache`), the
layered read (`readLocalFile`), the cache write (`writeLocalFile`) and the
checksum-verified update (`updateFromRemote`).

The source is callback-driven JavaScript over browser APIs.  Here every
operation is a function from the state before the call to the state after the
call together with the list of observable events it produced, in order.  What
the browser decides (whether a request loads, whether a storage step fails, how
a directory listing is cut into batches) is read from an `Env` record, one per
call.  A request, a file-system call or a `createWriter` either succeeds, running
the callback the source passes for success, or fails, running the one passed for
failure.  A file writer is different: its `error` event is followed by `writeend`,
which also ends a successful step, so the handler the source puts on `onwriteend`
runs whether the step failed or not.

A JavaScript string is a sequence of UTF-16 code units and a Lean string a
sequence of code points.  The code only ever searches for `/` and `_`, which
are single code units that never occur inside a surrogate pair, so replacing
and searching over code points gives the same result.
-/

namespace Assets

/-! ## Key codec -/

/-- Character-level meaning of `path.replace(/\//g, '___')`: every slash becomes
three underscores, everything else is copied. -/
def replaceSlashes : List Char → List Char
  | [] => []
  | c :: rest =>
    if c = '/' then '_' :: '_' :: '_' :: replaceSlashes rest else c :: replaceSlashes rest

/-- Character-level meaning of `path.replace(/___/g, '/')`: scanning from the left,
each leftmost run of three underscores becomes a slash and the scan resumes after
it; any other character is copied. -/
def replaceMarkers : List Char → List Char
  | a :: b :: c :: rest =>
    if a = '_' ∧ b = '_' ∧ c = '_' then '/' :: replaceMarkers rest
    else a :: replaceMarkers (b :: c :: rest)
  | a :: rest => a :: replaceMarkers rest
  | [] => []

/-- Source: `cachePathFromPath`, lines 85-87. -/
def cachePathFromPath (path : String) : String :=
  ⟨replaceSlashes path.data⟩

/-- Source: `pathFromCachePath`, lines 89-91. -/
def pathFromCachePath (path : String) : String :=
  ⟨replaceMarkers path.data⟩

/-- Meaning of `hay.indexOf(needle) >= 0`: `needle` occurs somewhere in `hay`. -/
def includes (hay needle : String) : Bool :=
  decide (needle.data <:+: hay.data)

/-! ## Data model -/

/-- The record handed to a caller's callback.  `content` is `none` when the object
literal has no `content` property or the property is not a string; `error` is
`none` when the property is absent or `undefined`. -/
structure Details where
  path : String
  content : Option String
  error : Option String
  deriving DecidableEq, Repr

/-- The argument of `updateFromRemote`: `details.path` and the optional `details.md5`. -/
structure UpdateEntry where
  path : String
  md5 : Option String
  deriving DecidableEq, Repr

/-- Outcome of `getTextFileFromURL`: `onLoad` runs with `this.responseText`
(`none` when it is not a string), or `onError` runs. -/
inductive XhrResult where
  | load (responseText : Option String)
  | error
  deriving DecidableEq, Repr

/-- Observable effects, in the order the code performs them. -/
inductive Event where
  | callback (d : Details)
  | localRead (path : String)
  | cacheRead (key : String)
  | remoteRead (path : String)
  | getLastVersion
  | setLastVersion (v : String)
  | readEntries
  | remove (fullPath : String)
  deriving DecidableEq, Repr

/-- The flat sandboxed file system: entry name and text. -/
abbrev Files := List (String × String)

/-- Module state: the memoised `fileSystem` handle, the `cacheSynchronized` flag,
the files of the sandboxed file system and the `extensionLastVersion` setting in
`chrome.storage.local`. -/
structure State where
  fileSystem : Bool
  cacheSynchronized : Bool
  files : Files
  extensionLastVersion : Option String
  deriving DecidableEq, Repr

/-- What the surroundings decide during one call.  An error field holds the
`err.name` delivered to the error handler, `none` meaning the step succeeds.
For the truncate and write steps of a file writer the handler gets a progress
event, which has no `name`: there the name held is the one of the writer's own
error, which the source never reads.
`writeError` also carries the text the file holds after the failed write; a
failed truncate leaves the file as it was.  `writeOver old new` is the text read
back after `write` put `new` at position 0 of a file that still holds `old`: the
bytes of `new`, then the bytes of `old` beyond them.
`readEntriesScript` cuts the directory listing into batches: `some n` delivers
the next `n + 1` entries, `none` makes the call fail, and once the script is
used up the rest of the listing comes in one batch. -/
structure Env where
  hashStr : String → String
  manifestVersion : String
  requestFileSystemError : Option String
  getFileError : Option String
  cacheFileLoads : Bool
  localFile : String → XhrResult
  remoteFile : String → XhrResult
  createWriterError : Option String
  truncateError : Option String
  writeError : Option (String × String)
  writeOver : String → String → String
  readEntriesScript : List (Option Nat)

/-! ## Storage primitives -/

/-- Source: `requestFileSystem`, lines 95-111.  The handle is reused when already
held; otherwise quota and file system are requested and the handle is kept on
success.  Returns the error name on failure. -/
def requestFileSystem (env : Env) (s : State) : State × Option String :=
  if s.fileSystem then (s, none)
  else
    match env.requestFileSystemError with
    | none => ({ s with fileSystem := true }, none)
    | some err => (s, some err)

/-- Behaviour of `fs.root.getFile(name, options, onFound, onError)`: the text of the
entry when it exists, a fresh empty entry when it does not and `create` is set,
`NotFoundError` otherwise. -/
def getFile (env : Env) (files : Files) (name : String) (create : Bool) :
    Files × Except String String :=
  match env.getFileError with
  | some err => (files, .error err)
  | none =>
    match files.lookup name with
    | some text => (files, .ok text)
    | none =>
      if create then (files ++ [(name, "")], .ok "")
      else (files, .error "NotFoundError")

/-- Replace the text of the entry called `name`. -/
def setFile (files : Files) (name text : String) : Files :=
  files.map fun e => if e.1 = name then (name, text) else e

/-- Behaviour of `entry.remove(nullFunc)` on the entry called `name`, the removal
succeeding. -/
def removeFile (files : Files) (name : String) : Files :=
  files.filter fun e => e.1 ≠ name

/-! ## Read -/

/-- The bundled read shared by `onCacheFileError`, `onCacheEntryError` and
`onRequestFileSystemError` (lines 188-198, 210, 225, 234). -/
def getLocal (env : Env) (path : String) : List Event :=
  match env.localFile path with
  | .load text => [.localRead path, .callback ⟨path, text, none⟩]
  | .error => [.localRead path, .callback ⟨path, some "", some "Error"⟩]

/-- Source: `readLocalFile`, lines 178-238. -/
def readLocalFile (env : Env) (s : State) (path : String) : State × List Event :=
  match requestFileSystem env s with
  | (s1, some _) => (s1, getLocal env path)
  | (s1, none) =>
    match getFile env s1.files (cachePathFromPath path) false with
    | (_, .error _) => (s1, getLocal env path)
    | (_, .ok text) =>
      if env.cacheFileLoads then
        (s1, [.cacheRead (cachePathFromPath path), .callback ⟨path, some text, none⟩])
      else
        (s1, .cacheRead (cachePathFromPath path) :: getLocal env path)

/-! ## Write and update -/

/-- Source: `writeLocalFile`, lines 279-343.  `onFileTruncateError` and
`onFileWriteError` are given the writer's `error` event, whose `name` is undefined,
so their `reportBack(err.name)` reports no error.  `writeend` follows `error`, so
after a failed truncate `onFileTruncateSuccess` runs too and starts the write on
the file as it is, and after a failed write `onFileWriteSuccess` runs too and
reports back once more. -/
def writeLocalFile (env : Env) (s : State) (path content : String) : State × List Event :=
  let reportBack : Option String → List Event := fun err =>
    [.callback ⟨path, some content, err⟩]
  match requestFileSystem env s with
  | (s1, some err) => (s1, reportBack (some err))
  | (s1, none) =>
    match getFile env s1.files (cachePathFromPath path) true with
    | (_, .error err) => (s1, reportBack (some err))
    | (files1, .ok old) =>
      match env.createWriterError with
      | some err => ({ s1 with files := files1 }, reportBack (some err))
      | none =>
        match env.truncateError with
        | some _ =>
          match env.writeError with
          | some (_, left) =>
            ({ s1 with files := setFile files1 (cachePathFromPath path) left },
              reportBack none ++ reportBack none ++ reportBack none)
          | none =>
            ({ s1 with files :=
                setFile files1 (cachePathFromPath path) (env.writeOver old content) },
              reportBack none ++ reportBack none)
        | none =>
          match env.writeError with
          | some (_, left) =>
            ({ s1 with files := setFile files1 (cachePathFromPath path) left },
              reportBack none ++ reportBack none)
          | none =>
            ({ s1 with files := setFile files1 (cachePathFromPath path) content },
              reportBack none)

/-- Source: `updateFromRemote`, lines 347-387.  `details.md5 || ''` is the given
checksum, or the empty string when it is absent or empty. -/
def updateFromRemote (env : Env) (s : State) (details : UpdateEntry) : State × List Event :=
  let targetPath := details.path
  let targetMd5 := details.md5.getD ""
  let reportBackError : List Event := [.callback ⟨targetPath, none, some "Error"⟩]
  match env.remoteFile details.path with
  | .error => (s, .remoteRead details.path :: reportBackError)
  | .load none => (s, .remoteRead details.path :: reportBackError)
  | .load (some responseText) =>
    if env.hashStr responseText ≠ targetMd5 then
      (s, .remoteRead details.path :: reportBackError)
    else
      let r := writeLocalFile env s targetPath responseText
      (r.1, .remoteRead details.path :: r.2)

/-! ## Synchronisation -/

/-- The loop body of `onReadEntries`, lines 137-144, over one batch of entry names:
an entry whose decoded full path contains `/assets/user/` is skipped, any other is
removed. -/
def removeEntries : List String → Files → Files × List Event
  | [], files => (files, [])
  | name :: rest, files =>
    if includes (pathFromCachePath ("/" ++ name)) "/assets/user/" then
      removeEntries rest files
    else
      let r := removeEntries rest (removeFile files name)
      (r.1, .remove ("/" ++ name) :: r.2)

/-- Source: `onReadEntries` and `onReadEntriesError`, lines 131-151, driven by
`directoryReader.readEntries`.  `listing` is what the reader has not yet delivered. -/
def onReadEntries : List (Option Nat) → List String → Files → Files × List Event
  | [], listing, files =>
    match listing with
    | [] => (files, [.readEntries])
    | _ :: _ =>
      let r := removeEntries listing files
      (r.1, .readEntries :: r.2 ++ [.readEntries])
  | none :: _, _, files => (files, [.readEntries])
  | some n :: script, listing, files =>
    match listing with
    | [] => (files, [.readEntries])
    | _ :: _ =>
      let r := removeEntries (listing.take (n + 1)) files
      let r2 := onReadEntries script (listing.drop (n + 1)) r.1
      (r2.1, .readEntries :: r.2 ++ r2.2)

/-- The value of `store.extensionLastVersion || '0.0.0.0'`. -/
def lastVersionOf (stored : Option String) : String :=
  match stored with
  | some v => if v = "" then "0.0.0.0" else v
  | none => "0.0.0.0"

/-- Source: `synchronizeCache`, lines 118-174. -/
def synchronizeCache (env : Env) (s : State) : State × List Event :=
  if s.cacheSynchronized then (s, [])
  else
    let s1 := { s with cacheSynchronized := true }
    let currentVersion := env.manifestVersion
    let lastVersion := lastVersionOf s1.extensionLastVersion
    if currentVersion = lastVersion then (s1, [.getLastVersion])
    else
      let s2 := { s1 with extensionLastVersion := some currentVersion }
      match requestFileSystem env s2 with
      | (s3, some _) => (s3, [.getLastVersion, .setLastVersion currentVersion])
      | (s3, none) =>
        let r := onReadEntries env.readEntriesScript (s3.files.map Prod.fst) s3.files
        ({ s3 with files := r.1 },
          .getLastVersion :: .setLastVersion currentVersion :: r.2)

/-- The records passed to the caller's callback, in order. -/
def callbacks : List Event → List Details
  | [] => []
  | .callback d :: rest => d :: callbacks rest
  | _ :: rest => callbacks rest

/-! ## Concrete surroundings used by the examples -/

/-- Stand-in for `YaMD5.hashStr` on the sample texts: the MD5 digests of `v1` and
`v2`, and the digest of the empty text for anything else. -/
def sampleHash (text : String) : String :=
  if text = "v2" then "1b267619c4812cc46ee281747884ca50"
  else if text = "v1" then "6654c734ccab8f440ff0825eb443dc7f"
  else "d41d8cd98f00b204e9800998ecf8427e"

/-- Surroundings in which no storage step fails, the remote server answers `v2`
for every path, the package bundles `hello` for every path and the running
version is `0.9.0.1`.  Its `writeOver` works on characters, which is exact for
the sample texts, all of them ASCII. -/
def sampleEnv : Env where
  hashStr := sampleHash
  manifestVersion := "0.9.0.1"
  requestFileSystemError := none
  getFileError := none
  cacheFileLoads := true
  localFile := fun _ => .load (some "hello")
  remoteFile := fun _ => .load (some "v2")
  createWriterError := none
  truncateError := none
  writeError := none
  writeOver := fun old new => new ++ old.drop new.length
  readEntriesScript := []

/-- The surroundings of `sampleEnv`, except that `createWriter` fails with
`InvalidStateError`. -/
def failingWriterEnv : Env :=
  { sampleEnv with createWriterError := some "InvalidStateError" }

/-- A state holding the handle, with `v1` cached for `assets/x.txt`. -/
def cachedState : State where
  fileSystem := true
  cacheSynchronized := true
  files := [("assets___x.txt", "v1")]
  extensionLastVersion := some "0.9.0.1"

/-- The surroundings of `sampleEnv` with a hash function whose value is always
the empty text. -/
def blankHashEnv : Env :=
  { sampleEnv with hashStr := fun _ => "" }

/-- A fresh state: no handle, no files, no stored version. -/
def emptyState : State where
  fileSystem := false
  cacheSynchronized := false
  files := []
  extensionLastVersion := none

/-- A state left by an older version, `0.9.0.0`: a cached list of the extension, a
user list, and a cached third-party list whose path has `/assets/user/` in the
middle. -/
def staleState : State where
  fileSystem := false
  cacheSynchronized := false
  files :=
    [("assets___ublock___filters.txt", "f"),
     ("assets___user___filters.txt", "u"),
     ("assets___thirdparties___example.com___assets___user___list.txt", "x")]
  extensionLastVersion := some "0.9.0.0"

/-! ## Process lifetime -/

/-- A later fresh process: the module variables `fileSystem` (line 63) and
`cacheSynchronized` (line 118) are initialised anew, while the files and the
`extensionLastVersion` setting persist. -/
def restart (s : State) : State :=
  { s with fileSystem := false, cacheSynchronized := false }

/-- One call made during a process lifetime: `synchronizeCache`, or one of the
exported `get`, `put` and `update`, each with the surroundings it meets. -/
inductive Call where
  | sync (env : Env)
  | get (env : Env) (path : String)
  | put (env : Env) (path content : String)
  | update (env : Env) (details : UpdateEntry)

/-- The effect of one call on the state, with the events it produced. -/
def step (s : State) : Call → State × List Event
  | .sync env => synchronizeCache env s
  | .get env path => readLocalFile env s path
  | .put env path content => writeLocalFile env s path content
  | .update env details => updateFromRemote env s details

/-- The state after a sequence of calls, made one after the other. -/
def runCalls (s : State) : List Call → State
  | [] => s
  | c :: rest => runCalls (step s c).1 rest

/-- The surroundings of `sampleEnv` with a remote server that cannot be reached. -/
def offlineEnv : Env :=
  { sampleEnv with remoteFile := fun _ => .error }

/-- The surroundings of `sampleEnv` in which the file system cannot be had. -/
def noFileSystemEnv : Env :=
  { sampleEnv with requestFileSystemError := some "SecurityError" }

/-! ## The key codec: round trip and distinct keys -/


theorem replaceMarkers_cons (a : Char) (l : List Char)
    (h : ¬ (a = '_' ∧ ∃ m, l = '_' :: '_' :: m)) :
    replaceMarkers (a :: l) = a :: replaceMarkers l := by
  match l with
  | [] => rfl
  | [b] => rfl
  | b :: c :: m =>
    have hc : ¬ (a = '_' ∧ b = '_' ∧ c = '_') := by
      rintro ⟨ha, hb, hc⟩
      exact h ⟨ha, m, by rw [hb, hc]⟩
    simp only [replaceMarkers, if_neg hc]

theorem replaceSlashes_append (l m : List Char) :
    replaceSlashes (l ++ m) = replaceSlashes l ++ replaceSlashes m := by
  induction l with
  | nil => rfl
  | cons c r ih =>
    by_cases hc : c = '/'
    · simp [replaceSlashes, hc, ih]
    · simp [replaceSlashes, hc, ih]

theorem replaceMarkers_replaceSlashes (l : List Char)
    (h1 : ¬ ['_', '_', '_'] <:+: l) (h2 : ¬ ['_', '/'] <:+: l) :
    replaceMarkers (replaceSlashes l) = l := by
  induction l with
  | nil => rfl
  | cons c r ih =>
    have ih1 := ih (fun h => h1 (List.infix_cons h)) (fun h => h2 (List.infix_cons h))
    by_cases hc : c = '/'
    · subst hc
      simp [replaceSlashes, replaceMarkers, ih1]
    · have hrs : replaceSlashes (c :: r) = c :: replaceSlashes r := by
        simp [replaceSlashes, hc]
      rw [hrs, replaceMarkers_cons, ih1]
      rintro ⟨hu, m, hm⟩
      subst hu
      match r, hm with
      | [], hm => simp [replaceSlashes] at hm
      | d :: r2, hm =>
        by_cases hd : d = '/'
        · subst hd
          exact h2 ⟨[], r2, rfl⟩
        · simp only [replaceSlashes, if_neg hd, List.cons.injEq] at hm
          obtain ⟨hd2, hm2⟩ := hm
          subst hd2
          match r2, hm2 with
          | [], hm2 => simp [replaceSlashes] at hm2
          | e :: r3, hm2 =>
            by_cases he : e = '/'
            · subst he
              exact h2 ⟨['_'], r3, rfl⟩
            · simp only [replaceSlashes, if_neg he, List.cons.injEq] at hm2
              obtain ⟨he2, -⟩ := hm2
              subst he2
              exact h1 ⟨[], r3, rfl⟩


theorem not_infix_of_includes (p needle : String) (h : includes p needle = false) :
    ¬ needle.data <:+: p.data := by
  simpa [includes] using h

/-- C7, as written, fails: a path that holds the marker does not come back. -/
theorem C7_counterexample :
    pathFromCachePath (cachePathFromPath "assets/my___list.txt") ≠ "assets/my___list.txt" := by
  decide

theorem replaceMarkers_marker (r : List Char) :
    replaceMarkers ('_' :: '_' :: '_' :: r) = '/' :: replaceMarkers r := by
  simp [replaceMarkers]

theorem not_mem_replaceSlashes (l : List Char) : '/' ∉ replaceSlashes l := by
  induction l with
  | nil => simp [replaceSlashes]
  | cons c r ih =>
    by_cases hc : c = '/'
    · simp [replaceSlashes, hc, ih]
    · have : ¬ '/' = c := fun h => hc h.symm
      simp [replaceSlashes, hc, ih, this]

/-- How the output of `replaceMarkers` can begin, for an input without a slash. -/
theorem replaceMarkers_head (m : List Char) (hm : '/' ∉ m) (x : Char) (y : List Char)
    (h : replaceMarkers m = x :: y) :
    (x = '/' ∧ ∃ r, m = '_' :: '_' :: '_' :: r) ∨
    (x ≠ '/' ∧ ∃ t, m = x :: t ∧ y = replaceMarkers t ∧
      ¬ (x = '_' ∧ ∃ r, t = '_' :: '_' :: r)) := by
  cases m with
  | nil => simp [replaceMarkers] at h
  | cons a t =>
    by_cases hc : a = '_' ∧ ∃ r, t = '_' :: '_' :: r
    · obtain ⟨ha, r, hr⟩ := hc
      subst ha hr
      rw [replaceMarkers_marker] at h
      left
      exact ⟨(List.cons.inj h).1.symm, r, rfl⟩
    · rw [replaceMarkers_cons a t hc] at h
      obtain ⟨hx, hy⟩ := List.cons.inj h
      subst hx
      right
      refine ⟨?_, t, rfl, hy.symm, hc⟩
      intro ha
      exact hm (by simp [ha])

/-- The output of `replaceMarkers` on an input without a slash holds neither three
underscores in a row nor an underscore right before a slash. -/
theorem replaceMarkers_clean (n : Nat) :
    ∀ m : List Char, m.length ≤ n → '/' ∉ m →
      ¬ ['_', '_', '_'] <:+: replaceMarkers m ∧ ¬ ['_', '/'] <:+: replaceMarkers m := by
  induction n with
  | zero =>
    intro m hlen _
    have : m = [] := List.length_eq_zero.mp (Nat.le_zero.mp hlen)
    subst this
    simp [replaceMarkers]
  | succ n ih =>
    intro m hlen hm
    cases m with
    | nil => simp [replaceMarkers]
    | cons a t =>
      have hlt : t.length ≤ n := by simpa using hlen
      have hmt : '/' ∉ t := fun h => hm (List.mem_cons_of_mem _ h)
      by_cases hc : a = '_' ∧ ∃ r, t = '_' :: '_' :: r
      · obtain ⟨ha, r, hr⟩ := hc
        subst ha hr
        have hlr : r.length ≤ n := by
          simp only [List.length_cons] at hlt
          omega
        have hmr : '/' ∉ r := fun h =>
          hmt (List.mem_cons_of_mem _ (List.mem_cons_of_mem _ h))
        obtain ⟨i1, i2⟩ := ih r hlr hmr
        rw [replaceMarkers_marker]
        constructor
        · intro h
          rcases List.infix_cons_iff.mp h with h | h
          · have := (List.cons_prefix_cons.mp h).1
            exact absurd this (by decide)
          · exact i1 h
        · intro h
          rcases List.infix_cons_iff.mp h with h | h
          · have := (List.cons_prefix_cons.mp h).1
            exact absurd this (by decide)
          · exact i2 h
      · obtain ⟨i1, i2⟩ := ih t hlt hmt
        rw [replaceMarkers_cons a t hc]
        constructor
        · intro h
          rcases List.infix_cons_iff.mp h with h | h
          · obtain ⟨ha, h⟩ := List.cons_prefix_cons.mp h
            obtain ⟨z, hz⟩ := h
            have e1 : replaceMarkers t = '_' :: ('_' :: z) := by simpa using hz.symm
            rcases replaceMarkers_head t hmt _ _ e1 with ⟨hx, -⟩ | ⟨-, t1, ht1, hy1, -⟩
            · exact absurd hx (by decide)
            · have hmt1 : '/' ∉ t1 := by
                intro h1
                apply hmt
                rw [ht1]
                exact List.mem_cons_of_mem _ h1
              rcases replaceMarkers_head t1 hmt1 _ _ hy1.symm with ⟨hx, -⟩ | ⟨-, t2, ht2, -, -⟩
              · exact absurd hx (by decide)
              · exact hc ⟨ha.symm, t2, by rw [ht1, ht2]⟩
          · exact i1 h
        · intro h
          rcases List.infix_cons_iff.mp h with h | h
          · obtain ⟨ha, h⟩ := List.cons_prefix_cons.mp h
            obtain ⟨z, hz⟩ := h
            have e1 : replaceMarkers t = '/' :: z := by simpa using hz.symm
            rcases replaceMarkers_head t hmt _ _ e1 with ⟨-, r, hr⟩ | ⟨hx, -⟩
            · exact hc ⟨ha.symm, '_' :: r, hr⟩
            · exact absurd rfl hx
          · exact i2 h

/-- C7, amended: `pathFromCachePath` gives back the path that `cachePathFromPath`
encoded exactly when the path holds neither `___` nor `_/`. -/
theorem C7_codec_round_trip_iff (p : String) :
    pathFromCachePath (cachePathFromPath p) = p ↔
      (includes p "___" = false ∧ includes p "_/" = false) := by
  constructor
  · intro h
    have hd : replaceMarkers (replaceSlashes p.data) = p.data := congrArg String.data h
    obtain ⟨c1, c2⟩ := replaceMarkers_clean (replaceSlashes p.data).length
      (replaceSlashes p.data) (le_refl _) (not_mem_replaceSlashes p.data)
    rw [hd] at c1 c2
    constructor
    · simpa [includes] using c1
    · simpa [includes] using c2
  · rintro ⟨h1, h2⟩
    have e := replaceMarkers_replaceSlashes p.data
      (not_infix_of_includes p "___" h1) (not_infix_of_includes p "_/" h2)
    simp [pathFromCachePath, cachePathFromPath, e]

/-- C8, as written, fails: two distinct paths without the marker share a key. -/
theorem C8_counterexample :
    "assets/a_/b.txt" ≠ "assets/a/_b.txt" ∧
    includes "assets/a_/b.txt" "___" = false ∧ includes "assets/a/_b.txt" "___" = false ∧
    cachePathFromPath "assets/a_/b.txt" = cachePathFromPath "assets/a/_b.txt" := by
  decide

/-- C8, amended: two distinct paths, neither holding `___` nor `_/`, get distinct keys. -/
theorem C8_codec_injective (p q : String)
    (hp1 : includes p "___" = false) (hp2 : includes p "_/" = false)
    (hq1 : includes q "___" = false) (hq2 : includes q "_/" = false)
    (hpq : p ≠ q) :
    cachePathFromPath p ≠ cachePathFromPath q := by
  intro h
  apply hpq
  have ep := replaceMarkers_replaceSlashes p.data
    (not_infix_of_includes p "___" hp1) (not_infix_of_includes p "_/" hp2)
  have eq := replaceMarkers_replaceSlashes q.data
    (not_infix_of_includes q "___" hq1) (not_infix_of_includes q "_/" hq2)
  have hd : replaceSlashes p.data = replaceSlashes q.data := by
    exact congrArg String.data h
  have : p.data = q.data := by rw [← ep, ← eq, hd]
  exact String.ext this

/-- Witness for C8: the theorem applied at a concrete input. -/
theorem C8_codec_injective_witness :
    cachePathFromPath "assets/ublock/filters.txt" ≠ cachePathFromPath "assets/user/filters.txt" :=
  C8_codec_injective "assets/ublock/filters.txt" "assets/user/filters.txt"
    (by decide) (by decide) (by decide) (by decide) (by decide)

/-! ## The file store -/

theorem lookup_cons_of_ne (r : Files) (j n c : String) (h : j ≠ n) :
    List.lookup j ((n, c) :: r) = List.lookup j r := by
  have hj : (j == n) = false := by simpa using h
  rw [List.lookup_cons, hj]

theorem setFile_cons_self (r : Files) (k c v : String) :
    setFile ((k, c) :: r) k v = (k, v) :: setFile r k v := by
  simp [setFile]

theorem setFile_cons_of_ne (r : Files) (n k c v : String) (h : n ≠ k) :
    setFile ((n, c) :: r) k v = (n, c) :: setFile r k v := by
  simp [setFile, h]

theorem lookup_setFile_self (files : Files) (k v : String) (h : files.lookup k ≠ none) :
    (setFile files k v).lookup k = some v := by
  induction files with
  | nil => simp at h
  | cons e r ih =>
    obtain ⟨n, c⟩ := e
    by_cases hn : n = k
    · subst hn
      rw [setFile_cons_self, List.lookup_cons_self]
    · have hkn : k ≠ n := fun h => hn h.symm
      rw [lookup_cons_of_ne r k n c hkn] at h
      rw [setFile_cons_of_ne r n k c v hn, lookup_cons_of_ne _ k n c hkn, ih h]

theorem lookup_setFile_of_ne (files : Files) (k v j : String) (h : j ≠ k) :
    (setFile files k v).lookup j = files.lookup j := by
  induction files with
  | nil => rfl
  | cons e r ih =>
    obtain ⟨n, c⟩ := e
    by_cases hn : n = k
    · subst hn
      rw [setFile_cons_self, lookup_cons_of_ne _ j n v h, lookup_cons_of_ne _ j n c h, ih]
    · rw [setFile_cons_of_ne r n k c v hn]
      by_cases hjn : j = n
      · subst hjn
        rw [List.lookup_cons_self, List.lookup_cons_self]
      · rw [lookup_cons_of_ne _ j n c hjn, lookup_cons_of_ne _ j n c hjn, ih]

theorem lookup_append_fresh_self (files : Files) (k : String) (h : files.lookup k = none) :
    (files ++ [(k, "")]).lookup k = some "" := by
  induction files with
  | nil => exact List.lookup_cons_self
  | cons e r ih =>
    obtain ⟨n, c⟩ := e
    by_cases hkn : k = n
    · subst hkn
      rw [List.lookup_cons_self] at h
      exact absurd h (by simp)
    · rw [lookup_cons_of_ne r k n c hkn] at h
      rw [List.cons_append, lookup_cons_of_ne _ k n c hkn, ih h]

theorem lookup_append_fresh_of_ne (files : Files) (k j : String) (h : j ≠ k) :
    (files ++ [(k, "")]).lookup j = files.lookup j := by
  induction files with
  | nil => rw [List.nil_append, lookup_cons_of_ne _ j k "" h]
  | cons e r ih =>
    obtain ⟨n, c⟩ := e
    by_cases hjn : j = n
    · subst hjn
      rw [List.cons_append, List.lookup_cons_self, List.lookup_cons_self]
    · rw [List.cons_append, lookup_cons_of_ne _ j n c hjn, lookup_cons_of_ne _ j n c hjn, ih]

/-- With the handle at hand and no fault, the entry found under the key of `path`
is what `readLocalFile` reports, and the bundled copy is not read. -/
theorem readLocalFile_hit (env : Env) (s : State) (path c : String)
    (hfs : s.fileSystem = true ∨ env.requestFileSystemError = none)
    (hget : env.getFileError = none) (hload : env.cacheFileLoads = true)
    (hc : s.files.lookup (cachePathFromPath path) = some c) :
    (readLocalFile env s path).2 =
      [.cacheRead (cachePathFromPath path), .callback ⟨path, some c, none⟩] := by
  rcases hfs with hfs | hfs
  · simp [readLocalFile, requestFileSystem, getFile, hfs, hget, hload, hc]
  · cases hs : s.fileSystem
    · simp [readLocalFile, requestFileSystem, getFile, hs, hfs, hget, hload, hc]
    · simp [readLocalFile, requestFileSystem, getFile, hs, hget, hload, hc]

/-- With no fault at any step, `writeLocalFile` reports success, keeps the handle
and leaves `content` under the key of `path`. -/
theorem writeLocalFile_ok (env : Env) (s : State) (path content : String)
    (hfs : s.fileSystem = true ∨ env.requestFileSystemError = none)
    (hget : env.getFileError = none) (hcw : env.createWriterError = none)
    (htr : env.truncateError = none) (hw : env.writeError = none) :
    (writeLocalFile env s path content).2 = [.callback ⟨path, some content, none⟩] ∧
    (writeLocalFile env s path content).1.fileSystem = true ∧
    (writeLocalFile env s path content).1.files.lookup (cachePathFromPath path)
      = some content := by
  have hreq : ∃ s1, requestFileSystem env s = (s1, none) ∧ s1.fileSystem = true ∧
      s1.files = s.files := by
    cases hs : s.fileSystem
    · rcases hfs with hfs | hfs
      · rw [hs] at hfs; exact absurd hfs (by simp)
      · exact ⟨{ s with fileSystem := true }, by simp [requestFileSystem, hs, hfs], rfl, rfl⟩
    · exact ⟨s, by simp [requestFileSystem, hs], hs, rfl⟩
  obtain ⟨s1, hreq, hs1, hfiles⟩ := hreq
  cases hl : s1.files.lookup (cachePathFromPath path) with
  | none =>
    simp only [writeLocalFile, hreq, getFile, hget, hl, hcw, htr, hw, if_true, true_and, hs1]
    apply lookup_setFile_self
    rw [lookup_append_fresh_self _ _ hl]
    simp
  | some text =>
    simp only [writeLocalFile, hreq, getFile, hget, hl, hcw, htr, hw, true_and, hs1]
    apply lookup_setFile_self
    rw [hl]
    simp

/-! ## Update and read -/

/-- C1: when `update` is called with the checksum of the text the server returns
and no storage step fails, it reports the path with that text and no error, and a
following `get` of the path reports the same text with no error, reading the cache
and not the bundled copy. -/
theorem C1_update_then_get (env env2 : Env) (s : State) (p t : String)
    (hfetch : env.remoteFile p = .load (some t))
    (hfs : s.fileSystem = true ∨ env.requestFileSystemError = none)
    (hget : env.getFileError = none) (hcw : env.createWriterError = none)
    (htr : env.truncateError = none) (hw : env.writeError = none)
    (hget2 : env2.getFileError = none) (hload2 : env2.cacheFileLoads = true) :
    callbacks (updateFromRemote env s ⟨p, some (env.hashStr t)⟩).2 = [⟨p, some t, none⟩] ∧
    callbacks (readLocalFile env2 (updateFromRemote env s ⟨p, some (env.hashStr t)⟩).1 p).2
      = [⟨p, some t, none⟩] ∧
    ∀ q, Event.localRead q ∉
      (readLocalFile env2 (updateFromRemote env s ⟨p, some (env.hashStr t)⟩).1 p).2 := by
  obtain ⟨hcb, hhandle, hlook⟩ := writeLocalFile_ok env s p t hfs hget hcw htr hw
  have hu : updateFromRemote env s ⟨p, some (env.hashStr t)⟩ =
      ((writeLocalFile env s p t).1, .remoteRead p :: (writeLocalFile env s p t).2) := by
    simp [updateFromRemote, hfetch]
  have hr := readLocalFile_hit env2 (writeLocalFile env s p t).1 p t (Or.inl hhandle)
    hget2 hload2 hlook
  rw [hu]
  simp only [hr, hcb]
  refine ⟨rfl, rfl, ?_⟩
  intro q hq
  simp at hq

/-- Witness for C1: the theorem applied at a concrete input. -/
theorem C1_update_then_get_witness :
    callbacks (updateFromRemote sampleEnv cachedState
      ⟨"assets/x.txt", some (sampleEnv.hashStr "v2")⟩).2 = [⟨"assets/x.txt", some "v2", none⟩] ∧
    callbacks (readLocalFile sampleEnv (updateFromRemote sampleEnv cachedState
      ⟨"assets/x.txt", some (sampleEnv.hashStr "v2")⟩).1 "assets/x.txt").2
      = [⟨"assets/x.txt", some "v2", none⟩] ∧
    ∀ q, Event.localRead q ∉
      (readLocalFile sampleEnv (updateFromRemote sampleEnv cachedState
        ⟨"assets/x.txt", some (sampleEnv.hashStr "v2")⟩).1 "assets/x.txt").2 :=
  C1_update_then_get sampleEnv sampleEnv cachedState "assets/x.txt" "v2" rfl (Or.inl rfl)
    rfl rfl rfl rfl rfl rfl

/-- C2: when the checksum given to `update` differs from the hash of the fetched
text, the whole state, files included, is as before the call, and a following `get`
of the path does exactly what it did before the update. -/
theorem C2_update_bad_hash (env : Env) (s : State) (p t h : String)
    (hfetch : env.remoteFile p = .load (some t)) (hne : h ≠ env.hashStr t) :
    (updateFromRemote env s ⟨p, some h⟩).1 = s ∧
    (updateFromRemote env s ⟨p, some h⟩).1.files = s.files ∧
    ∀ env2, readLocalFile env2 (updateFromRemote env s ⟨p, some h⟩).1 p
      = readLocalFile env2 s p := by
  have hu : (updateFromRemote env s ⟨p, some h⟩).1 = s := by
    have : ¬ env.hashStr t = h := fun e => hne e.symm
    simp [updateFromRemote, hfetch, this]
  rw [hu]
  exact ⟨rfl, rfl, fun _ => rfl⟩

/-- Witness for C2: the theorem applied at a concrete input. -/
theorem C2_update_bad_hash_witness :
    (updateFromRemote sampleEnv cachedState
      ⟨"assets/x.txt", some "6654c734ccab8f440ff0825eb443dc7f"⟩).1 = cachedState ∧
    (updateFromRemote sampleEnv cachedState
      ⟨"assets/x.txt", some "6654c734ccab8f440ff0825eb443dc7f"⟩).1.files = cachedState.files ∧
    ∀ env2, readLocalFile env2 (updateFromRemote sampleEnv cachedState
      ⟨"assets/x.txt", some "6654c734ccab8f440ff0825eb443dc7f"⟩).1 "assets/x.txt"
      = readLocalFile env2 cachedState "assets/x.txt" :=
  C2_update_bad_hash sampleEnv cachedState "assets/x.txt" "v2"
    "6654c734ccab8f440ff0825eb443dc7f" rfl (by decide)

/-- C4, as written, fails: with no checksum in the entry, a loading fetch and no
storage fault, `update` reports an error and the cache still holds the old text. -/
theorem C4_counterexample :
    sampleEnv.remoteFile "assets/x.txt" = .load (some "v2") ∧
    callbacks (updateFromRemote sampleEnv cachedState ⟨"assets/x.txt", none⟩).2
      = [⟨"assets/x.txt", none, some "Error"⟩] ∧
    (updateFromRemote sampleEnv cachedState ⟨"assets/x.txt", none⟩).1.files.lookup
      (cachePathFromPath "assets/x.txt") = some "v1" := by
  decide

/-- C4, amended: an absent checksum stands for the empty text and the comparison is
still made.  When the hash of the fetched text is not the empty text, `update`
leaves the state as it was and reports the path with the error `Error`; only when
the hash is the empty text, and no storage step fails, is the text written under
the key of the path and reported with no error. -/
theorem C4_update_without_md5 (env : Env) (s : State) (p t : String)
    (hfetch : env.remoteFile p = .load (some t)) :
    (env.hashStr t ≠ "" →
      (updateFromRemote env s ⟨p, none⟩).1 = s ∧
      callbacks (updateFromRemote env s ⟨p, none⟩).2 = [⟨p, none, some "Error"⟩]) ∧
    (env.hashStr t = "" →
      (s.fileSystem = true ∨ env.requestFileSystemError = none) →
      env.getFileError = none → env.createWriterError = none →
      env.truncateError = none → env.writeError = none →
      (updateFromRemote env s ⟨p, none⟩).1.files.lookup (cachePathFromPath p) = some t ∧
      callbacks (updateFromRemote env s ⟨p, none⟩).2 = [⟨p, some t, none⟩]) := by
  constructor
  · intro hh
    simp [updateFromRemote, hfetch, hh, callbacks]
  · intro hh hfs hget hcw htr hw
    obtain ⟨hcb, -, hlook⟩ := writeLocalFile_ok env s p t hfs hget hcw htr hw
    have hu : updateFromRemote env s ⟨p, none⟩ =
        ((writeLocalFile env s p t).1, .remoteRead p :: (writeLocalFile env s p t).2) := by
      simp [updateFromRemote, hfetch, hh]
    rw [hu]
    refine ⟨hlook, ?_⟩
    show callbacks (.remoteRead p :: (writeLocalFile env s p t).2) = _
    rw [hcb]
    rfl

/-- Witness for C4: the theorem applied at a concrete input. -/
theorem C4_update_without_md5_witness :
    ((updateFromRemote sampleEnv cachedState ⟨"assets/x.txt", none⟩).1 = cachedState ∧
      callbacks (updateFromRemote sampleEnv cachedState ⟨"assets/x.txt", none⟩).2
        = [⟨"assets/x.txt", none, some "Error"⟩]) ∧
    ((updateFromRemote blankHashEnv cachedState ⟨"assets/x.txt", none⟩).1.files.lookup
        (cachePathFromPath "assets/x.txt") = some "v2" ∧
      callbacks (updateFromRemote blankHashEnv cachedState ⟨"assets/x.txt", none⟩).2
        = [⟨"assets/x.txt", some "v2", none⟩]) :=
  ⟨(C4_update_without_md5 sampleEnv cachedState "assets/x.txt" "v2" rfl).1 (by decide),
   (C4_update_without_md5 blankHashEnv cachedState "assets/x.txt" "v2" rfl).2 rfl
     (Or.inl rfl) rfl rfl rfl rfl⟩

/-- C5: when the handle can be had, the entry under the key of the path exists with
text `c` and loads, `get` reports the path with `c` and no error, whatever the
bundled read would give, and the bundled copy is not read. -/
theorem C5_cache_hit_wins (env : Env) (s : State) (p c : String)
    (hfs : s.fileSystem = true ∨ env.requestFileSystemError = none)
    (hget : env.getFileError = none) (hload : env.cacheFileLoads = true)
    (hc : s.files.lookup (cachePathFromPath p) = some c) :
    callbacks (readLocalFile env s p).2 = [⟨p, some c, none⟩] ∧
    ∀ q, Event.localRead q ∉ (readLocalFile env s p).2 := by
  rw [readLocalFile_hit env s p c hfs hget hload hc]
  refine ⟨rfl, ?_⟩
  intro q hq
  simp at hq

/-- Witness for C5: the theorem applied at a concrete input. -/
theorem C5_cache_hit_wins_witness :
    callbacks (readLocalFile sampleEnv cachedState "assets/x.txt").2
      = [⟨"assets/x.txt", some "v1", none⟩] ∧
    ∀ q, Event.localRead q ∉ (readLocalFile sampleEnv cachedState "assets/x.txt").2 :=
  C5_cache_hit_wins sampleEnv cachedState "assets/x.txt" "v1" (Or.inl rfl) rfl rfl (by decide)

/-- On a miss `readLocalFile` does the bundled read, after the attempt on the
cached file when the entry was found. -/
theorem readLocalFile_miss (env : Env) (s : State) (p : String)
    (hmiss : (s.fileSystem = false ∧ env.requestFileSystemError ≠ none) ∨
      env.getFileError ≠ none ∨ s.files.lookup (cachePathFromPath p) = none ∨
      env.cacheFileLoads = false) :
    (readLocalFile env s p).2 = getLocal env p ∨
    (readLocalFile env s p).2 = .cacheRead (cachePathFromPath p) :: getLocal env p := by
  cases hs : s.fileSystem <;> cases hr : env.requestFileSystemError <;>
    cases hg : env.getFileError <;>
    cases hl : s.files.lookup (cachePathFromPath p) <;>
    cases hc : env.cacheFileLoads <;>
    simp [readLocalFile, requestFileSystem, getFile, hs, hr, hg, hl, hc] at hmiss ⊢

theorem callbacks_getLocal (env : Env) (p : String) :
    callbacks (getLocal env p) =
      match env.localFile p with
      | .load text => [⟨p, text, none⟩]
      | .error => [⟨p, some "", some "Error"⟩] := by
  unfold getLocal
  split <;> rfl

/-- C6: when the cache yields no readable entry for the path (no handle, the open
fails, no entry, or the cached file does not load), `get` reports the bundled text
with no error when the bundled read loads, reports empty content with the error
`Error` when it fails, and in every case calls back exactly once. -/
theorem C6_read_fallback (env : Env) (s : State) (p : String)
    (hmiss : (s.fileSystem = false ∧ env.requestFileSystemError ≠ none) ∨
      env.getFileError ≠ none ∨ s.files.lookup (cachePathFromPath p) = none ∨
      env.cacheFileLoads = false) :
    (∀ b, env.localFile p = .load (some b) →
      callbacks (readLocalFile env s p).2 = [⟨p, some b, none⟩]) ∧
    (env.localFile p = .error →
      callbacks (readLocalFile env s p).2 = [⟨p, some "", some "Error"⟩]) ∧
    (callbacks (readLocalFile env s p).2).length = 1 := by
  have hcb : callbacks (readLocalFile env s p).2 = callbacks (getLocal env p) := by
    rcases readLocalFile_miss env s p hmiss with h | h
    · rw [h]
    · rw [h]; rfl
  rw [hcb, callbacks_getLocal]
  refine ⟨?_, ?_, ?_⟩
  · intro b hb; rw [hb]
  · intro he; rw [he]
  · split <;> rfl

/-- Witness for C6: the theorem applied at a concrete input. -/
theorem C6_read_fallback_witness :
    callbacks (readLocalFile sampleEnv emptyState "assets/x.txt").2
      = [⟨"assets/x.txt", some "hello", none⟩] :=
  (C6_read_fallback sampleEnv emptyState "assets/x.txt" (Or.inr (Or.inr (Or.inl rfl)))).1
    "hello" rfl

/-! ## Failed updates -/

/-- No step of `writeLocalFile` changes what is found under another key. -/
theorem writeLocalFile_lookup_of_ne (env : Env) (s : State) (p t k : String)
    (hk : k ≠ cachePathFromPath p) :
    (writeLocalFile env s p t).1.files.lookup k = s.files.lookup k := by
  have e1 := lookup_append_fresh_of_ne s.files (cachePathFromPath p) k hk
  have e2 : ∀ (fs : Files) (v : String),
      (setFile fs (cachePathFromPath p) v).lookup k = fs.lookup k :=
    fun fs v => lookup_setFile_of_ne fs (cachePathFromPath p) v k hk
  cases hs : s.fileSystem <;> cases hr : env.requestFileSystemError <;>
    cases hg : env.getFileError <;>
    cases hl : s.files.lookup (cachePathFromPath p) <;>
    cases hc : env.createWriterError <;> cases ht : env.truncateError <;>
    cases hw : env.writeError <;>
    simp [writeLocalFile, requestFileSystem, getFile, hs, hr, hg, hl, hc, ht, hw, e1, e2]

/-- A record with an error comes out of `writeLocalFile` only when the handle
request, the open or `createWriter` fails.  The files are then as before, unless the
entry is new and `createWriter` fails: then the handle is held and the empty entry
made by the open is left at the end of the files. -/
theorem writeLocalFile_error_cases (env : Env) (s : State) (p t : String) (d : Details)
    (hd : d ∈ callbacks (writeLocalFile env s p t).2) (herr : d.error ≠ none) :
    ((s.fileSystem = false ∧ env.requestFileSystemError ≠ none) ∨
      env.getFileError ≠ none ∨ env.createWriterError ≠ none) ∧
    ((writeLocalFile env s p t).1.files = s.files ∨
      (s.files.lookup (cachePathFromPath p) = none ∧ env.createWriterError ≠ none ∧
        (writeLocalFile env s p t).1.fileSystem = true ∧
        (writeLocalFile env s p t).1.files = s.files ++ [(cachePathFromPath p, "")])) := by
  cases hs : s.fileSystem <;> cases hr : env.requestFileSystemError <;>
    cases hg : env.getFileError <;>
    cases hl : s.files.lookup (cachePathFromPath p) <;>
    cases hc : env.createWriterError <;> cases ht : env.truncateError <;>
    cases hw : env.writeError <;>
    simp [writeLocalFile, requestFileSystem, getFile, hs, hr, hg, hl, hc, ht, hw,
      callbacks] at hd ⊢ <;>
    simp_all

/-- The handle, once held, is still held after `writeLocalFile`. -/
theorem writeLocalFile_fileSystem (env : Env) (s : State) (p t : String)
    (hs : s.fileSystem = true) : (writeLocalFile env s p t).1.fileSystem = true := by
  cases hg : env.getFileError <;>
    cases hl : s.files.lookup (cachePathFromPath p) <;>
    cases hc : env.createWriterError <;> cases ht : env.truncateError <;>
    cases hw : env.writeError <;>
    simp [writeLocalFile, requestFileSystem, getFile, hs, hg, hl, hc, ht, hw]

/-- What `readLocalFile` reports depends on the state only through the files and
the availability of the handle. -/
theorem readLocalFile_events_congr (env : Env) (s s2 : State) (p : String)
    (hfiles : s2.files = s.files)
    (hfs : s.fileSystem = true ∨ env.requestFileSystemError = none)
    (hkeep : s.fileSystem = true → s2.fileSystem = true) :
    (readLocalFile env s2 p).2 = (readLocalFile env s p).2 := by
  cases hs : s.fileSystem <;> cases hs2 : s2.fileSystem <;>
    cases hr : env.requestFileSystemError <;> cases hg : env.getFileError <;>
    cases hl : s.files.lookup (cachePathFromPath p) <;> cases hc : env.cacheFileLoads <;>
    simp [readLocalFile, requestFileSystem, getFile, hfiles, hs, hs2, hr, hg, hl, hc]
      at hfs hkeep ⊢

/-- Either `updateFromRemote` stops at the fetch or the checksum, leaving the state
as it was and reporting the path with the error `Error` and no content; or it goes
on to `writeLocalFile` with the fetched text, whose state and callbacks are then
the update's. -/
theorem updateFromRemote_cases (env : Env) (s : State) (entry : UpdateEntry) :
    ((updateFromRemote env s entry).1 = s ∧
      callbacks (updateFromRemote env s entry).2 = [⟨entry.path, none, some "Error"⟩]) ∨
    ∃ t, (updateFromRemote env s entry).1 = (writeLocalFile env s entry.path t).1 ∧
      callbacks (updateFromRemote env s entry).2
        = callbacks (writeLocalFile env s entry.path t).2 := by
  cases hr : env.remoteFile entry.path with
  | error => left; simp [updateFromRemote, hr, callbacks]
  | load o =>
    cases o with
    | none => left; simp [updateFromRemote, hr, callbacks]
    | some t =>
      by_cases hh : env.hashStr t = entry.md5.getD ""
      · right
        refine ⟨t, ?_, ?_⟩
        · simp [updateFromRemote, hr, hh]
        · simp [updateFromRemote, hr, hh, callbacks]
      · left; simp [updateFromRemote, hr, hh, callbacks]

/-- C3, as written, fails: `assets/x.txt` has no entry and `createWriter` fails
after the open made one; `update` reports the error `InvalidStateError`, and `get`,
which reported the bundled `hello` before, now reports the empty text of the entry
left behind. -/
theorem C3_counterexample :
    callbacks (updateFromRemote failingWriterEnv emptyState
      ⟨"assets/x.txt", some (sampleHash "v2")⟩).2
      = [⟨"assets/x.txt", some "v2", some "InvalidStateError"⟩] ∧
    callbacks (readLocalFile sampleEnv emptyState "assets/x.txt").2
      = [⟨"assets/x.txt", some "hello", none⟩] ∧
    callbacks (readLocalFile sampleEnv (updateFromRemote failingWriterEnv emptyState
      ⟨"assets/x.txt", some (sampleHash "v2")⟩).1 "assets/x.txt").2
      = [⟨"assets/x.txt", some "", none⟩] := by
  decide

/-- C3, amended: when `update` reports a record with an error, (1) the record has no
content, or the handle request, the open or `createWriter` failed; (2) every entry
other than the one under the key of the path is as before; (3) the files are exactly
as before, or the path had no entry, `createWriter` failed and the files are as
before with an empty entry for the path added, which a following `get` that opens
and loads it reports as the empty text with no error; (4) when the files are as
before, and the handle was held before the update or the following `get` can have
it, that `get` of the path produces the events it produced before the update. -/
theorem C3_failed_update_scope (env env2 : Env) (s : State) (entry : UpdateEntry)
    (d : Details) (hd : d ∈ callbacks (updateFromRemote env s entry).2)
    (herr : d.error ≠ none) :
    (d.content = none ∨ (s.fileSystem = false ∧ env.requestFileSystemError ≠ none) ∨
      env.getFileError ≠ none ∨ env.createWriterError ≠ none) ∧
    (∀ k, k ≠ cachePathFromPath entry.path →
      (updateFromRemote env s entry).1.files.lookup k = s.files.lookup k) ∧
    ((updateFromRemote env s entry).1.files = s.files ∨
      (s.files.lookup (cachePathFromPath entry.path) = none ∧
        env.createWriterError ≠ none ∧
        (updateFromRemote env s entry).1.files
          = s.files ++ [(cachePathFromPath entry.path, "")] ∧
        (env2.getFileError = none → env2.cacheFileLoads = true →
          callbacks (readLocalFile env2 (updateFromRemote env s entry).1 entry.path).2
            = [⟨entry.path, some "", none⟩]))) ∧
    ((updateFromRemote env s entry).1.files = s.files →
      (s.fileSystem = true ∨ env2.requestFileSystemError = none) →
      (readLocalFile env2 (updateFromRemote env s entry).1 entry.path).2
        = (readLocalFile env2 s entry.path).2) := by
  rcases updateFromRemote_cases env s entry with ⟨h, hcb⟩ | ⟨t, h1, h2⟩
  · rw [hcb] at hd
    have hdc : d.content = none := by
      have : d = ⟨entry.path, none, some "Error"⟩ := by simpa using hd
      rw [this]
    rw [h]
    exact ⟨Or.inl hdc, fun _ _ => rfl, Or.inl rfl, fun _ _ => rfl⟩
  · rw [h1]
    rw [h2] at hd
    obtain ⟨hcause, hfiles⟩ := writeLocalFile_error_cases env s entry.path t d hd herr
    refine ⟨Or.inr hcause,
      fun k hk => writeLocalFile_lookup_of_ne env s entry.path t k hk, ?_, ?_⟩
    · rcases hfiles with hf | ⟨hnone, hcw, hfs, hf⟩
      · exact Or.inl hf
      · refine Or.inr ⟨hnone, hcw, hf, ?_⟩
        intro hget hload
        have hlook : (writeLocalFile env s entry.path t).1.files.lookup
            (cachePathFromPath entry.path) = some "" := by
          rw [hf]
          exact lookup_append_fresh_self _ _ hnone
        rw [readLocalFile_hit env2 _ entry.path "" (Or.inl hfs) hget hload hlook]
        rfl
    · intro hf hfs
      exact readLocalFile_events_congr env2 s _ entry.path hf hfs
        (writeLocalFile_fileSystem env s entry.path t)

/-- Witness for C3: `createWriter` fails on a path that already has an entry; the
files are as before and `get` produces the events it produced before. -/
theorem C3_failed_update_scope_witness :
    (updateFromRemote failingWriterEnv cachedState
      ⟨"assets/x.txt", some (sampleHash "v2")⟩).1.files = cachedState.files ∧
    (readLocalFile sampleEnv
      (updateFromRemote failingWriterEnv cachedState
        ⟨"assets/x.txt", some (sampleHash "v2")⟩).1 "assets/x.txt").2
      = (readLocalFile sampleEnv cachedState "assets/x.txt").2 :=
  have h := C3_failed_update_scope failingWriterEnv sampleEnv cachedState
    ⟨"assets/x.txt", some (sampleHash "v2")⟩
    ⟨"assets/x.txt", some "v2", some "InvalidStateError"⟩ (by decide) (by decide)
  ⟨by decide, h.2.2.2 (by decide) (Or.inl rfl)⟩

/-! ## The sweep -/

theorem lookup_removeFile_of_ne (files : Files) (n k : String) (h : k ≠ n) :
    (removeFile files n).lookup k = files.lookup k := by
  induction files with
  | nil => rfl
  | cons e r ih =>
    obtain ⟨m, c⟩ := e
    simp only [removeFile] at ih
    by_cases hm : m = n
    · subst hm
      have : removeFile ((m, c) :: r) m = removeFile r m := by simp [removeFile]
      rw [this, lookup_cons_of_ne r k m c h]
      exact ih
    · have : removeFile ((m, c) :: r) n = (m, c) :: removeFile r n := by
        simp [removeFile, hm]
      rw [this]
      by_cases hkm : k = m
      · subst hkm
        rw [List.lookup_cons_self, List.lookup_cons_self]
      · rw [lookup_cons_of_ne _ k m c hkm, lookup_cons_of_ne _ k m c hkm]
        exact ih

/-- The loop body removes only entries that fail the user-folder test, and leaves
what is found under a name that passes it. -/
theorem removeEntries_spec (names : List String) (files : Files) :
    (∀ fp, Event.remove fp ∈ (removeEntries names files).2 →
      ∃ name, fp = "/" ++ name ∧
        includes (pathFromCachePath ("/" ++ name)) "/assets/user/" = false) ∧
    (∀ k, includes (pathFromCachePath ("/" ++ k)) "/assets/user/" = true →
      (removeEntries names files).1.lookup k = files.lookup k) := by
  induction names generalizing files with
  | nil =>
    refine ⟨?_, fun _ _ => rfl⟩
    intro fp h
    simp [removeEntries] at h
  | cons n rest ih =>
    by_cases ht : includes (pathFromCachePath ("/" ++ n)) "/assets/user/" = true
    · simp only [removeEntries, ht, if_true]
      exact ih files
    · have hf : includes (pathFromCachePath ("/" ++ n)) "/assets/user/" = false := by
        simpa using ht
      simp only [removeEntries, hf, Bool.false_eq_true, if_false]
      obtain ⟨ih1, ih2⟩ := ih (removeFile files n)
      constructor
      · intro fp h
        rcases List.mem_cons.mp h with h | h
        · exact ⟨n, by simpa using h, hf⟩
        · exact ih1 fp h
      · intro k hk
        rw [ih2 k hk]
        apply lookup_removeFile_of_ne
        intro hkn
        rw [hkn, hf] at hk
        exact absurd hk (by simp)

/-- The same for the whole enumeration, whatever the batches. -/
theorem onReadEntries_spec (script : List (Option Nat)) (listing : List String)
    (files : Files) :
    (∀ fp, Event.remove fp ∈ (onReadEntries script listing files).2 →
      ∃ name, fp = "/" ++ name ∧
        includes (pathFromCachePath ("/" ++ name)) "/assets/user/" = false) ∧
    (∀ k, includes (pathFromCachePath ("/" ++ k)) "/assets/user/" = true →
      (onReadEntries script listing files).1.lookup k = files.lookup k) := by
  induction script generalizing listing files with
  | nil =>
    cases listing with
    | nil =>
      refine ⟨?_, fun _ _ => rfl⟩
      intro fp h
      simp [onReadEntries] at h
    | cons a l =>
      obtain ⟨h1, h2⟩ := removeEntries_spec (a :: l) files
      refine ⟨?_, fun k hk => h2 k hk⟩
      intro fp h
      simp only [onReadEntries, List.mem_cons, List.mem_append, List.mem_singleton,
        reduceCtorEq, false_or, or_false, List.not_mem_nil] at h
      exact h1 fp h
  | cons o script ih =>
    cases o with
    | none =>
      refine ⟨?_, fun _ _ => rfl⟩
      intro fp h
      simp [onReadEntries] at h
    | some n =>
      cases listing with
      | nil =>
        refine ⟨?_, fun _ _ => rfl⟩
        intro fp h
        simp [onReadEntries] at h
      | cons a l =>
        obtain ⟨h1, h2⟩ := removeEntries_spec ((a :: l).take (n + 1)) files
        obtain ⟨i1, i2⟩ := ih ((a :: l).drop (n + 1))
          (removeEntries ((a :: l).take (n + 1)) files).1
        constructor
        · intro fp h
          simp only [onReadEntries, List.mem_cons, List.mem_append, reduceCtorEq,
            false_or] at h
          rcases h with h | h
          · exact h1 fp h
          · exact i1 fp h
        · intro k hk
          simp only [onReadEntries]
          rw [i2 k hk, h2 k hk]

/-- The same for `synchronizeCache`. -/
theorem synchronizeCache_spec (env : Env) (s : State) :
    (∀ fp, Event.remove fp ∈ (synchronizeCache env s).2 →
      ∃ name, fp = "/" ++ name ∧
        includes (pathFromCachePath ("/" ++ name)) "/assets/user/" = false) ∧
    (∀ k, includes (pathFromCachePath ("/" ++ k)) "/assets/user/" = true →
      (synchronizeCache env s).1.files.lookup k = s.files.lookup k) := by
  unfold synchronizeCache
  by_cases hc : s.cacheSynchronized = true
  · simp [hc]
  · by_cases hv : env.manifestVersion = lastVersionOf s.extensionLastVersion
    · simp [hc, hv]
    · cases hs : s.fileSystem
      · cases hr : env.requestFileSystemError with
        | some err => simp [hc, hv, requestFileSystem, hs, hr]
        | none =>
          simp only [hc, hv, requestFileSystem, hs, hr, Bool.false_eq_true, if_false,
            List.mem_cons, reduceCtorEq, false_or]
          exact onReadEntries_spec env.readEntriesScript (s.files.map Prod.fst) s.files
      · simp only [hc, hv, requestFileSystem, hs, Bool.false_eq_true, if_false, if_true,
          List.mem_cons, reduceCtorEq, false_or]
        exact onReadEntries_spec env.readEntriesScript (s.files.map Prod.fst) s.files

/-- The full path of the entry of a path under `assets/user/` decodes to a text that
starts with `/assets/user/`. -/
theorem user_entry_kept (suffix : String) :
    includes (pathFromCachePath ("/" ++ cachePathFromPath ("assets/user/" ++ suffix)))
      "/assets/user/" = true := by
  have hd : (pathFromCachePath ("/" ++ cachePathFromPath ("assets/user/" ++ suffix))).data
      = "/assets/user/".data ++ replaceMarkers (replaceSlashes suffix.data) := by
    simp [pathFromCachePath, cachePathFromPath, replaceSlashes_append, replaceSlashes,
      replaceMarkers]
  simp only [includes, decide_eq_true_eq, hd]
  exact ⟨[], replaceMarkers (replaceSlashes suffix.data), rfl⟩

/-- C10: for every path that begins with `assets/user/`, whatever follows, the entry
named by its key, whose full path is `/` followed by the key, is not passed to
`remove` by `synchronizeCache`, for any running version, stored version, listing
and state; and what the cache holds under that key is as before. -/
theorem C10_user_assets_survive (env : Env) (s : State) (suffix : String) :
    Event.remove ("/" ++ cachePathFromPath ("assets/user/" ++ suffix))
      ∉ (synchronizeCache env s).2 ∧
    (synchronizeCache env s).1.files.lookup (cachePathFromPath ("assets/user/" ++ suffix))
      = s.files.lookup (cachePathFromPath ("assets/user/" ++ suffix)) := by
  obtain ⟨h1, h2⟩ := synchronizeCache_spec env s
  refine ⟨?_, h2 _ (user_entry_kept suffix)⟩
  intro hmem
  obtain ⟨name, hname, hf⟩ := h1 _ hmem
  have hk := user_entry_kept suffix
  rw [hname, hf] at hk
  exact absurd hk (by simp)

/-- C9: the code at the failing input.  The running version `0.9.0.1` differs from
the stored `0.9.0.0` and the listing does not fail, yet after the sweep the entry of
`assets/thirdparties/example.com/assets/user/list.txt`, a path that is not under
`assets/user/`, is still there. -/
theorem C9_sweep_keeps_entry_outside_user_folder :
    sampleEnv.manifestVersion ≠ lastVersionOf staleState.extensionLastVersion ∧
    pathFromCachePath "assets___thirdparties___example.com___assets___user___list.txt"
      = "assets/thirdparties/example.com/assets/user/list.txt" ∧
    ¬ "assets/user/".data <+: "assets/thirdparties/example.com/assets/user/list.txt".data ∧
    (synchronizeCache sampleEnv staleState).1.files =
      [("assets___user___filters.txt", "u"),
       ("assets___thirdparties___example.com___assets___user___list.txt", "x")] ∧
    (synchronizeCache sampleEnv staleState).1.extensionLastVersion = some "0.9.0.1" := by
  decide

/-! ## One synchronisation per process -/

/-- Once the flag is set, `synchronizeCache` returns at once. -/
theorem synchronizeCache_of_synchronized (env : Env) (s : State)
    (h : s.cacheSynchronized = true) : synchronizeCache env s = (s, []) := by
  simp [synchronizeCache, h]

/-- Every call of `synchronizeCache` leaves the flag set. -/
theorem synchronizeCache_sets_flag (env : Env) (s : State) :
    (synchronizeCache env s).1.cacheSynchronized = true := by
  cases hc : s.cacheSynchronized
  · by_cases hv : env.manifestVersion = lastVersionOf s.extensionLastVersion
    · simp [synchronizeCache, hc, hv]
    · cases hs : s.fileSystem <;> cases hr : env.requestFileSystemError <;>
        simp [synchronizeCache, requestFileSystem, hc, hv, hs, hr]
  · simp [synchronizeCache, hc]

theorem requestFileSystem_flag (env : Env) (s : State) :
    (requestFileSystem env s).1.cacheSynchronized = s.cacheSynchronized := by
  cases hs : s.fileSystem <;> cases hr : env.requestFileSystemError <;>
    simp [requestFileSystem, hs, hr]

theorem readLocalFile_flag (env : Env) (s : State) (p : String) :
    (readLocalFile env s p).1.cacheSynchronized = s.cacheSynchronized := by
  cases hs : s.fileSystem <;> cases hr : env.requestFileSystemError <;>
    cases hg : env.getFileError <;>
    cases hl : s.files.lookup (cachePathFromPath p) <;>
    cases hc : env.cacheFileLoads <;>
    simp [readLocalFile, requestFileSystem, getFile, hs, hr, hg, hl, hc]

theorem writeLocalFile_flag (env : Env) (s : State) (p t : String) :
    (writeLocalFile env s p t).1.cacheSynchronized = s.cacheSynchronized := by
  cases hs : s.fileSystem <;> cases hr : env.requestFileSystemError <;>
    cases hg : env.getFileError <;>
    cases hl : s.files.lookup (cachePathFromPath p) <;>
    cases hc : env.createWriterError <;> cases ht : env.truncateError <;>
    cases hw : env.writeError <;>
    simp [writeLocalFile, requestFileSystem, getFile, hs, hr, hg, hl, hc, ht, hw]

theorem updateFromRemote_flag (env : Env) (s : State) (entry : UpdateEntry) :
    (updateFromRemote env s entry).1.cacheSynchronized = s.cacheSynchronized := by
  cases hr : env.remoteFile entry.path with
  | error => simp [updateFromRemote, hr]
  | load o =>
    cases o with
    | none => simp [updateFromRemote, hr]
    | some t =>
      by_cases hh : env.hashStr t = entry.md5.getD ""
      · simp [updateFromRemote, hr, hh, writeLocalFile_flag]
      · simp [updateFromRemote, hr, hh]

/-- No call clears the flag. -/
theorem step_keeps_flag (s : State) (c : Call) (h : s.cacheSynchronized = true) :
    (step s c).1.cacheSynchronized = true := by
  cases c with
  | sync env => exact synchronizeCache_sets_flag env s
  | get env path => simp [step, readLocalFile_flag, h]
  | put env path content => simp [step, writeLocalFile_flag, h]
  | update env details => simp [step, updateFromRemote_flag, h]

theorem runCalls_keeps_flag (calls : List Call) (s : State)
    (h : s.cacheSynchronized = true) : (runCalls s calls).cacheSynchronized = true := by
  induction calls generalizing s with
  | nil => exact h
  | cons c rest ih => exact ih _ (step_keeps_flag s c h)

/-- C12: the first call of `synchronizeCache` sets the flag whatever happens in it,
failures included; in every state with the flag set a call of `synchronizeCache`
changes nothing and produces no event, so it reads no marker, writes none, lists
nothing and removes nothing; and this is so for a call made after the first one and
any sequence of further calls of `synchronizeCache`, `get`, `put` and `update`. -/
theorem C12_sync_once_per_process (env1 env2 : Env) (s : State) (calls : List Call) :
    (synchronizeCache env1 s).1.cacheSynchronized = true ∧
    (∀ s2 : State, s2.cacheSynchronized = true → synchronizeCache env2 s2 = (s2, [])) ∧
    synchronizeCache env2 (runCalls (synchronizeCache env1 s).1 calls)
      = (runCalls (synchronizeCache env1 s).1 calls, []) :=
  ⟨synchronizeCache_sets_flag env1 s,
   fun s2 h => synchronizeCache_of_synchronized env2 s2 h,
   synchronizeCache_of_synchronized env2 _
     (runCalls_keeps_flag calls _ (synchronizeCache_sets_flag env1 s))⟩

/-- Witness for C12: after a first call whose file-system request failed, and an
update in between, a second call does nothing. -/
theorem C12_sync_once_per_process_witness :
    synchronizeCache sampleEnv
        (runCalls (synchronizeCache noFileSystemEnv staleState).1
          [.update sampleEnv ⟨"assets/x.txt", some (sampleHash "v2")⟩])
      = (runCalls (synchronizeCache noFileSystemEnv staleState).1
          [.update sampleEnv ⟨"assets/x.txt", some (sampleHash "v2")⟩], []) ∧
    synchronizeCache sampleEnv cachedState = (cachedState, []) :=
  ⟨(C12_sync_once_per_process noFileSystemEnv sampleEnv staleState
      [.update sampleEnv ⟨"assets/x.txt", some (sampleHash "v2")⟩]).2.2,
   (C12_sync_once_per_process noFileSystemEnv sampleEnv staleState []).2.1 cachedState rfl⟩

/-! ## Across processes, and the record of a failed update -/

/-- After the first call in a process, made with a non-empty running version, the
stored version reads back as that running version. -/
theorem lastVersionOf_after_sync (env : Env) (s : State)
    (hfresh : s.cacheSynchronized = false) (hv : env.manifestVersion ≠ "") :
    lastVersionOf (synchronizeCache env s).1.extensionLastVersion = env.manifestVersion := by
  by_cases he : env.manifestVersion = lastVersionOf s.extensionLastVersion
  · simp [synchronizeCache, hfresh, ← he]
  · have hm : (synchronizeCache env s).1.extensionLastVersion = some env.manifestVersion := by
      cases hs : s.fileSystem <;> cases hr : env.requestFileSystemError <;>
        simp [synchronizeCache, requestFileSystem, hfresh, he, hs, hr]
    rw [hm]
    simp [lastVersionOf, hv]

/-- A first call that finds the stored version equal to the running one only sets
the flag. -/
theorem synchronizeCache_same_version (env : Env) (t : State)
    (hf : t.cacheSynchronized = false)
    (hv : env.manifestVersion = lastVersionOf t.extensionLastVersion) :
    synchronizeCache env t = ({ t with cacheSynchronized := true }, [.getLastVersion]) := by
  simp [synchronizeCache, hf, ← hv]

/-- C11: for every running version, every stored version, present or absent, and
every set of files, after the first `synchronizeCache` of one process a
`synchronizeCache` in a later fresh process with the same running version, whatever
files the cache holds by then, only reads the stored version: it removes nothing,
writes no version, and leaves files and stored version as they were.  The running
version is `chrome.runtime.getManifest().version`, which is never the empty text:
an extension whose manifest has no valid version is not loaded. -/
theorem C11_no_second_purge (env1 env2 : Env) (s : State) (files2 : Files)
    (hfresh : s.cacheSynchronized = false)
    (hv : env1.manifestVersion ≠ "")
    (hsame : env2.manifestVersion = env1.manifestVersion) :
    (synchronizeCache env2
      (restart { (synchronizeCache env1 s).1 with files := files2 })).2
      = [.getLastVersion] ∧
    (synchronizeCache env2
      (restart { (synchronizeCache env1 s).1 with files := files2 })).1.files = files2 ∧
    (synchronizeCache env2
      (restart { (synchronizeCache env1 s).1 with files := files2 })).1.extensionLastVersion
      = (synchronizeCache env1 s).1.extensionLastVersion := by
  have h := lastVersionOf_after_sync env1 s hfresh hv
  have e := synchronizeCache_same_version env2
    (restart { (synchronizeCache env1 s).1 with files := files2 }) rfl
    (by rw [hsame]; exact h.symm)
  rw [e]
  exact ⟨rfl, rfl, rfl⟩

/-- Witness for C11: the theorem applied at a concrete input. -/
theorem C11_no_second_purge_witness :
    (synchronizeCache sampleEnv
      (restart { (synchronizeCache sampleEnv staleState).1 with
        files := [("assets___ublock___filters.txt", "f")] })).2 = [.getLastVersion] :=
  (C11_no_second_purge sampleEnv sampleEnv staleState
    [("assets___ublock___filters.txt", "f")] rfl (by decide) rfl).1

/-- The record `updateFromRemote` reports when the fetch fails, gives no text, or
gives a text whose hash is not the expected one: the path and the error `Error`,
with no content. -/
theorem updateFromRemote_error_record (env : Env) (s : State) (entry : UpdateEntry)
    (h : env.remoteFile entry.path = .error ∨ env.remoteFile entry.path = .load none ∨
      ∃ t, env.remoteFile entry.path = .load (some t) ∧ env.hashStr t ≠ entry.md5.getD "") :
    callbacks (updateFromRemote env s entry).2 = [⟨entry.path, none, some "Error"⟩] := by
  rcases h with h | h | ⟨t, h, hh⟩
  · simp [updateFromRemote, h, callbacks]
  · simp [updateFromRemote, h, callbacks]
  · simp [updateFromRemote, h, hh, callbacks]

/-- C13: the code at the failing inputs.  With an unreachable server, and with a
fetched text `v2` checked against the digest of `v1`, the record reported by
`updateFromRemote` has the path and the error `Error` but no content, where the
claim has the empty text as content. -/
theorem C13_failed_update_record_has_no_content :
    callbacks (updateFromRemote offlineEnv cachedState
      ⟨"assets/x.txt", some (sampleHash "v2")⟩).2
      = [⟨"assets/x.txt", none, some "Error"⟩] ∧
    callbacks (updateFromRemote sampleEnv cachedState
      ⟨"assets/x.txt", some (sampleHash "v1")⟩).2
      = [⟨"assets/x.txt", none, some "Error"⟩] ∧
    callbacks (updateFromRemote offlineEnv cachedState
      ⟨"assets/x.txt", some (sampleHash "v2")⟩).2
      ≠ [⟨"assets/x.txt", some "", some "Error"⟩] ∧
    callbacks (updateFromRemote sampleEnv cachedState
      ⟨"assets/x.txt", some (sampleHash "v1")⟩).2
      ≠ [⟨"assets/x.txt", some "", some "Error"⟩] := by
  decide

end Assets
